import Mathlib

/-!
Shallow embedding of the GuessWho matchmaking server (`main.go`).

The Go program keeps a global `Server` holding two maps guarded by a mutex:
`Lobbies` (6-character code to `*Lobby`) and `Players` (session id to
`*Player`).  Lobby member lists are slices of `*Player`, so a lobby member
aliases the same mutable `Player` object that the directory and every other
lobby sees.  We model that aliasing with an explicit heap: `Server.heap` maps
a player id to the current `Player` record, lobbies and the directory store
ids, and in-place mutation of a `*Player` becomes `mapAdjust` on the heap.

Maps are modelled as association lists with Go map semantics: assignment
replaces the value of an existing key in place, lookup returns the first
(unique) binding, delete removes the key.

The websocket handlers are embedded one-to-one: `handleCreateLobby`,
`handleJoinLobby` and `handlerPlayerQuit` take the server state and the
originating session's id, and return the new state together with the list of
`(recipient id, message)` pairs pushed onto `SendChan` queues.  A handler that
would dereference a nil payload pointer returns `Except.error` (the Go code
has no nil check and would fault at runtime).
-/

namespace GuessWho

/-- Mirrors the Go `Player` struct (the `Conn` and `SendChan` fields carry no
state relevant to the claims; outbound traffic is modelled as a message log). -/
structure Player where
  id : String
  nickname : String
  avatarIdx : Int
  isHost : Bool
  deriving DecidableEq, Repr

/-- Mirrors the Go `Lobby` struct; `players` holds the ids of the aliased
`Player` objects (Go stores `[]*Player`). -/
structure Lobby where
  id : String
  players : List String
  deriving DecidableEq, Repr

/-- Mirrors the Go `Server` struct. `Lobbies` and `Players` are the two maps;
`heap` is the store of allocated `Player` objects, addressed by player id
(a `*Player` in Go).  A session deleted from `Players` can still be aliased
from a lobby, hence the separate heap. -/
structure Server where
  Lobbies : List (String × Lobby)
  Players : List String
  heap : List (String × Player)
  deriving DecidableEq, Repr

/-- Inbound payload's `player` object: the fields the handlers read. -/
structure PayloadPlayer where
  nickname : String
  avatarIdx : Int
  deriving DecidableEq, Repr

/-- Inbound payload's `lobby` object: the handlers only read `ID`. -/
structure PayloadLobby where
  id : String
  deriving DecidableEq, Repr

/-- Mirrors the Go `Payload` struct: both fields are pointers
(`*Lobby`, `*Player`), hence `Option`; a field absent from the JSON decodes
to `nil`, i.e. `none`. -/
structure Payload where
  lobby : Option PayloadLobby
  player : Option PayloadPlayer
  deriving DecidableEq, Repr

/-- The two domain errors `joinLobby` can return (`fmt.Errorf` in Go). -/
inductive JoinError where
  | lobbyNotFound (code : String)
  | lobbyFull (code : String)
  deriving DecidableEq, Repr

/-- The error strings built by `fmt.Errorf` in `joinLobby`. -/
def JoinError.message : JoinError → String
  | .lobbyNotFound code => "ERROR: lobby with id " ++ code ++ " not found"
  | .lobbyFull code => "ERROR: lobby with id " ++ code ++ " is already full"

/-- One serialized outbound websocket message, by generator. -/
inductive OutMsg where
  | connected (p : Player)
  | lobbyCreated (l : Lobby)
  | lobbyJoined (l : Lobby)
  | errorMsg (message : String)
  deriving DecidableEq, Repr

/-- A nil-pointer dereference a handler would perform on a decoded payload
with a missing object (the Go code reads `payload.Player` / `payload.Lobby`
fields without a nil check). -/
inductive NilDeref where
  | nilPlayer
  | nilLobby
  deriving DecidableEq, Repr

/-- Go map read: first (unique) binding of the key. -/
def mapLookup (k : String) : List (String × α) → Option α
  | [] => none
  | (k', v) :: rest => if k' = k then some v else mapLookup k rest

/-- Go map assignment `m[k] = v`: replaces the binding in place when the key
exists, otherwise adds it. -/
def mapInsert (k : String) (v : α) : List (String × α) → List (String × α)
  | [] => [(k, v)]
  | (k', v') :: rest => if k' = k then (k, v) :: rest else (k', v') :: mapInsert k v rest

/-- In-place mutation through a pointer: rewrite the (unique) binding of `k`. -/
def mapAdjust (k : String) (f : α → α) : List (String × α) → List (String × α)
  | [] => []
  | (k', v) :: rest => if k' = k then (k', f v) :: rest else (k', v) :: mapAdjust k f rest

/-- `(*Server).createLobby`: build the lobby with the creator as its only
member and assign it into the `Lobbies` map.  The code generates
`uuid.New().String()[:6]` with no collision check, so the fresh code is a
parameter here and an existing binding of the same code is overwritten
(Go map assignment). -/
def Server.createLobby (s : Server) (pid : String) (lobbyID : String) : Lobby × Server :=
  let lobby : Lobby := { id := lobbyID, players := [pid] }
  (lobby, { s with Lobbies := mapInsert lobbyID lobby s.Lobbies })

/-- `(*Server).joinLobby`: look the lobby up under the registry lock; unknown
code and full lobby are the two error returns; otherwise append the joiner
through the lobby pointer (the map keeps the same pointer, modelled by
re-binding the code to the grown lobby). -/
def Server.joinLobby (s : Server) (pid : String) (lobbyID : String) :
    Except JoinError (Lobby × Server) :=
  match mapLookup lobbyID s.Lobbies with
  | none => Except.error (JoinError.lobbyNotFound lobbyID)
  | some lobby =>
    if 2 ≤ lobby.players.length then
      Except.error (JoinError.lobbyFull lobbyID)
    else
      let lobby' : Lobby := { id := lobby.id, players := lobby.players ++ [pid] }
      Except.ok (lobby', { s with Lobbies := mapInsert lobbyID lobby' s.Lobbies })

/-- Mutate the `Player` object `pid` points at (Go writes through `player`). -/
def updatePlayer (s : Server) (pid : String) (f : Player → Player) : Server :=
  { s with heap := mapAdjust pid f s.heap }

/-- `handleCreateLobby`: after a successful JSON decode the handler reads
`payload.Player` with no nil check (error case), stamps the session as host
with the supplied attributes, creates the lobby and queues `LobbyCreated` to
the creator only. -/
def handleCreateLobby (s : Server) (pid : String) (payload : Payload) (code : String) :
    Except NilDeref (Server × List (String × OutMsg)) :=
  match payload.player with
  | none => Except.error NilDeref.nilPlayer
  | some pp =>
    let s1 := updatePlayer s pid fun p =>
      { p with isHost := true, avatarIdx := pp.avatarIdx, nickname := pp.nickname }
    let r := s1.createLobby pid code
    Except.ok (r.2, [(pid, OutMsg.lobbyCreated r.1)])

/-- `handleJoinLobby`: stamps the session as non-host first (before the join
is even attempted), then reads `payload.Lobby.ID` with no nil check; on a
failed join queues one `Error` to the joiner, on success queues the same
`LobbyJoined` message to every member of the grown lobby. -/
def handleJoinLobby (s : Server) (pid : String) (payload : Payload) :
    Except NilDeref (Server × List (String × OutMsg)) :=
  match payload.player with
  | none => Except.error NilDeref.nilPlayer
  | some pp =>
    let s1 := updatePlayer s pid fun p =>
      { p with isHost := false, avatarIdx := pp.avatarIdx, nickname := pp.nickname }
    match payload.lobby with
    | none => Except.error NilDeref.nilLobby
    | some pl =>
      match s1.joinLobby pid pl.id with
      | Except.error e => Except.ok (s1, [(pid, OutMsg.errorMsg e.message)])
      | Except.ok (lobby, s2) =>
        Except.ok (s2, lobby.players.map fun m => (m, OutMsg.lobbyJoined lobby))

/-- `handlerPlayerQuit`: `delete(server.Players, player.ID)` and nothing else;
no message is produced. -/
def handlerPlayerQuit (s : Server) (pid : String) : Server × List (String × OutMsg) :=
  ({ s with Players := s.Players.filter fun q => q != pid }, [])

/-- A freshly connected player as built in `handleWebSocket` (uuid id,
`IsHost: false`, zero-valued display attributes). -/
def newPlayer (pid : String) : Player :=
  { id := pid, nickname := "", avatarIdx := 0, isHost := false }

/-- `server.Players[player.ID] = player` at connect time. -/
def dirInsert (pid : String) (dir : List String) : List String :=
  if pid ∈ dir then dir else dir ++ [pid]

/-- One client action, as dispatched by `handleWebSocket`.  `connect` carries
the uuid assigned to the session; `create` carries the decoded payload and
the 6-character code cut from a fresh uuid. -/
inductive Op where
  | connect (pid : String)
  | create (pid : String) (payload : Payload) (code : String)
  | join (pid : String) (payload : Payload)
  | quit (pid : String)
  deriving DecidableEq, Repr

/-- One dispatch step.  `connect` requires a fresh uuid (uuids never collide)
and registers the new player, queuing the `Connected` message; the other ops
require the session object to exist (the handler runs for a connected
session).  A handler that hits a nil dereference faults the process, so such
a step yields no successor state. -/
def step (s : Server) : Op → Option (Server × List (String × OutMsg))
  | Op.connect pid =>
    if (mapLookup pid s.heap).isSome then none
    else
      some ({ s with heap := mapInsert pid (newPlayer pid) s.heap,
                     Players := dirInsert pid s.Players },
            [(pid, OutMsg.connected (newPlayer pid))])
  | Op.create pid payload code =>
    if (mapLookup pid s.heap).isSome ∧ code.length = 6 then
      match handleCreateLobby s pid payload code with
      | Except.error _ => none
      | Except.ok r => some r
    else none
  | Op.join pid payload =>
    if (mapLookup pid s.heap).isSome then
      match handleJoinLobby s pid payload with
      | Except.error _ => none
      | Except.ok r => some r
    else none
  | Op.quit pid =>
    if (mapLookup pid s.heap).isSome then some (handlerPlayerQuit s pid) else none

/-- Run a sequence of client actions, accumulating the outbound message log. -/
def run (s : Server) : List Op → Option (Server × List (String × OutMsg))
  | [] => some (s, [])
  | op :: ops =>
    match step s op with
    | none => none
    | some (s', msgs) =>
      match run s' ops with
      | none => none
      | some (sf, log) => some (sf, msgs ++ log)

/-- The initial global `server` value: both maps empty. -/
def initServer : Server := { Lobbies := [], Players := [], heap := [] }

/-- A run from the freshly started server. -/
def runInit (ops : List Op) : Option (Server × List (String × OutMsg)) :=
  run initServer ops

/-! ### Wire serialization (the `generate*Msg` / `errorResponse` functions)

`encoding/json` output is modelled as a JSON value tree.  Struct tags are
reproduced: `omitempty` drops a field holding its zero value (empty string,
`0`, `false`, nil pointer, empty slice), and `json:"-"` fields (`Conn`,
`SendChan`, both mutexes) never appear. -/

/-- A JSON value, as produced by `json.Marshal`. -/
inductive Json where
  | str (s : String)
  | num (n : Int)
  | jbool (b : Bool)
  | arr (elems : List Json)
  | obj (fields : List (String × Json))

/-- A `*Lobby` as seen by `json.Marshal`: the member pointers resolved to the
player objects they alias at marshal time. -/
structure LobbyWire where
  id : String
  players : List Player

/-- `json.Marshal` of a `Player` (all four serialized fields are `omitempty`). -/
def marshalPlayer (p : Player) : Json :=
  Json.obj
    ((if p.id = "" then [] else [("id", Json.str p.id)])
      ++ (if p.nickname = "" then [] else [("nickname", Json.str p.nickname)])
      ++ (if p.avatarIdx = 0 then [] else [("avatarIdx", Json.num p.avatarIdx)])
      ++ (if p.isHost = false then [] else [("isHost", Json.jbool p.isHost)]))

/-- `json.Marshal` of a `Lobby` (`id` and `players` are `omitempty`). -/
def marshalLobbyWire (l : LobbyWire) : Json :=
  Json.obj
    ((if l.id = "" then [] else [("id", Json.str l.id)])
      ++ (if l.players.isEmpty then [] else
            [("players", Json.arr (l.players.map marshalPlayer))]))

/-- `generateConnectedMsg`: marshals `Payload{Player: player}` (the nil
`Lobby` field is omitted) and wraps it as `WsMessage{Type, Payload}`. -/
def generateConnectedMsg (p : Player) : Json :=
  Json.obj [("type", Json.str "Connected"),
            ("payload", Json.obj [("player", marshalPlayer p)])]

/-- `generateLobbyCreatedMsg`: marshals `Payload{Lobby: lobby}` and wraps it. -/
def generateLobbyCreatedMsg (l : LobbyWire) : Json :=
  Json.obj [("type", Json.str "LobbyCreated"),
            ("payload", Json.obj [("lobby", marshalLobbyWire l)])]

/-- `generateLobbyJoinedMsg`: marshals `Payload{Lobby: lobby}` and wraps it. -/
def generateLobbyJoinedMsg (l : LobbyWire) : Json :=
  Json.obj [("type", Json.str "LobbyJoined"),
            ("payload", Json.obj [("lobby", marshalLobbyWire l)])]

/-- `errorResponse`: an anonymous struct with fields `type` and `message` —
note there is no `payload` wrapper around the text. -/
def errorResponse (message : String) : Json :=
  Json.obj [("type", Json.str "Error"), ("message", Json.str message)]

/-- The server-to-client message types declared in the source. -/
def outboundTypes : List String := ["Connected", "LobbyCreated", "LobbyJoined", "Error"]

/-- The envelope shape the spec prescribes for every outbound message: an
object with exactly a recognized `type` tag and a `payload` field carrying
all type-specific content. -/
def IsEnvelope (j : Json) : Prop :=
  ∃ t payloadJson,
    j = Json.obj [("type", Json.str t), ("payload", payloadJson)] ∧ t ∈ outboundTypes

/-! ### Lock events in `joinLobby`

`joinLobby` runs `s.mu.Lock()` with `defer s.mu.Unlock()`, so the registry
lock is released only when the function returns — after the nested
`lobby.mu.Lock()` / `lobby.mu.Unlock()` pair on the success path.  The
sequence of lock operations each control path performs is recorded as a
trace. -/

/-- One mutex operation performed by `joinLobby`. -/
inductive LockEvent where
  | acqRegistry
  | relRegistry
  | acqLobby (code : String)
  | relLobby (code : String)
  deriving DecidableEq, Repr

/-- The exact sequence of lock operations `joinLobby` performs on the given
state: the deferred registry unlock fires last on every path; on the success
path the lobby lock is taken and released strictly inside it. -/
def joinLobbyLockTrace (s : Server) (lobbyID : String) : List LockEvent :=
  match mapLookup lobbyID s.Lobbies with
  | none => [LockEvent.acqRegistry, LockEvent.relRegistry]
  | some lobby =>
    if 2 ≤ lobby.players.length then
      [LockEvent.acqRegistry, LockEvent.relRegistry]
    else
      [LockEvent.acqRegistry, LockEvent.acqLobby lobbyID,
       LockEvent.relLobby lobbyID, LockEvent.relRegistry]

/-- Scans a trace with the registry-held flag and checks that the registry
lock is free at every lobby-lock acquisition. -/
def registryFreeAtLobbyAcq : List LockEvent → Bool → Bool
  | [], _ => true
  | LockEvent.acqRegistry :: rest, _ => registryFreeAtLobbyAcq rest true
  | LockEvent.relRegistry :: rest, _ => registryFreeAtLobbyAcq rest false
  | LockEvent.acqLobby _ :: rest, held => !held && registryFreeAtLobbyAcq rest held
  | LockEvent.relLobby _ :: rest, held => registryFreeAtLobbyAcq rest held

/-- Scans a trace with the registry-held flag and checks that the registry
lock is held at every lobby-lock acquisition (registry-before-lobby nesting). -/
def registryHeldAtLobbyAcq : List LockEvent → Bool → Bool
  | [], _ => true
  | LockEvent.acqRegistry :: rest, _ => registryHeldAtLobbyAcq rest true
  | LockEvent.relRegistry :: rest, _ => registryHeldAtLobbyAcq rest false
  | LockEvent.acqLobby _ :: rest, held => held && registryHeldAtLobbyAcq rest held
  | LockEvent.relLobby _ :: rest, held => registryHeldAtLobbyAcq rest held

/-! ### Association-list map lemmas -/

theorem mem_of_mapLookup_eq_some {α : Type} {k : String} {v : α} {m : List (String × α)}
    (h : mapLookup k m = some v) : (k, v) ∈ m := by
  induction m with
  | nil => simp [mapLookup] at h
  | cons hd tl ih =>
    obtain ⟨k', v'⟩ := hd
    simp only [mapLookup] at h
    split at h
    · next heq =>
      cases h
      exact heq ▸ List.mem_cons_self _ _
    · exact List.mem_cons_of_mem _ (ih h)

theorem mapLookup_mapInsert_self {α : Type} (k : String) (v : α) (m : List (String × α)) :
    mapLookup k (mapInsert k v m) = some v := by
  induction m with
  | nil => simp [mapInsert, mapLookup]
  | cons hd tl ih =>
    obtain ⟨k', v'⟩ := hd
    simp only [mapInsert]
    split
    · simp [mapLookup]
    · next hne => simp only [mapLookup, if_neg hne, ih]

theorem mem_map_fst_mapInsert {α : Type} {x k : String} {v : α} {m : List (String × α)} :
    x ∈ (mapInsert k v m).map Prod.fst ↔ x = k ∨ x ∈ m.map Prod.fst := by
  induction m with
  | nil => simp [mapInsert]
  | cons hd tl ih =>
    obtain ⟨k', v'⟩ := hd
    simp only [mapInsert]
    split
    · next heq => subst heq; simp
    · simp [ih]; tauto

theorem nodup_map_fst_mapInsert {α : Type} {k : String} {v : α} {m : List (String × α)}
    (h : (m.map Prod.fst).Nodup) : ((mapInsert k v m).map Prod.fst).Nodup := by
  induction m with
  | nil => simp [mapInsert]
  | cons hd tl ih =>
    obtain ⟨k', v'⟩ := hd
    simp only [List.map_cons, List.nodup_cons] at h
    obtain ⟨hnotin, hnd⟩ := h
    simp only [mapInsert]
    split
    · next heq =>
      subst heq
      simp only [List.map_cons, List.nodup_cons]
      exact ⟨hnotin, hnd⟩
    · next hne =>
      simp only [List.map_cons, List.nodup_cons]
      refine ⟨?_, ih hnd⟩
      rw [mem_map_fst_mapInsert]
      rintro (rfl | hmem)
      · exact hne rfl
      · exact hnotin hmem

theorem mem_of_mem_mapInsert {α : Type} {e : String × α} {k : String} {v : α}
    {m : List (String × α)} (h : e ∈ mapInsert k v m) : e = (k, v) ∨ e ∈ m := by
  induction m with
  | nil => simpa [mapInsert] using h
  | cons hd tl ih =>
    obtain ⟨k', v'⟩ := hd
    simp only [mapInsert] at h
    split at h
    · rcases List.mem_cons.mp h with h1 | h1
      · exact Or.inl h1
      · exact Or.inr (List.mem_cons_of_mem _ h1)
    · rcases List.mem_cons.mp h with h1 | h1
      · exact Or.inr (h1 ▸ List.mem_cons_self _ _)
      · rcases ih h1 with h2 | h2
        · exact Or.inl h2
        · exact Or.inr (List.mem_cons_of_mem _ h2)

theorem mapLookup_mapAdjust_self {α : Type} (k : String) (f : α → α)
    (m : List (String × α)) :
    mapLookup k (mapAdjust k f m) = (mapLookup k m).map f := by
  induction m with
  | nil => simp [mapAdjust, mapLookup]
  | cons hd tl ih =>
    obtain ⟨k', v'⟩ := hd
    simp only [mapAdjust]
    split
    · next heq => simp [mapLookup, heq]
    · next hne => simp only [mapLookup, if_neg hne, ih]

/-! ### The registry invariant and its preservation by every dispatch step -/

/-- A well-formed registry entry: the lobby's own code is its map key and its
member count is 1 or 2. -/
def LobbyOk (e : String × Lobby) : Prop :=
  e.2.id = e.1 ∧ 1 ≤ e.2.players.length ∧ e.2.players.length ≤ 2

/-- The registry invariant: lobby codes are pairwise distinct and every
registered lobby is well formed. -/
structure Inv (s : Server) : Prop where
  nodupCodes : (s.Lobbies.map Prod.fst).Nodup
  lobbyOk : ∀ e ∈ s.Lobbies, LobbyOk e

theorem Inv.of_lobbies_eq {s t : Server} (h : s.Lobbies = t.Lobbies) (ht : Inv t) :
    Inv s := by
  refine ⟨?_, ?_⟩ <;> rw [h]
  · exact ht.nodupCodes
  · exact ht.lobbyOk

theorem inv_initServer : Inv initServer := by
  constructor <;> simp [initServer]

theorem handleCreateLobby_ok {s : Server} {pid code : String} {pl : Option PayloadLobby}
    {pp : PayloadPlayer} {s' : Server} {msgs : List (String × OutMsg)}
    (h : handleCreateLobby s pid ⟨pl, some pp⟩ code = Except.ok (s', msgs)) :
    s'.Lobbies = mapInsert code { id := code, players := [pid] } s.Lobbies
      ∧ s'.heap = mapAdjust pid (fun p =>
          { p with isHost := true, avatarIdx := pp.avatarIdx, nickname := pp.nickname }) s.heap
      ∧ msgs = [(pid, OutMsg.lobbyCreated { id := code, players := [pid] })] := by
  simp only [handleCreateLobby, Server.createLobby, updatePlayer, Except.ok.injEq,
    Prod.mk.injEq] at h
  obtain ⟨h1, h2⟩ := h
  subst h1; subst h2
  exact ⟨rfl, rfl, rfl⟩

theorem inv_handleCreateLobby {s : Server} {pid code : String} {payload : Payload}
    {s' : Server} {msgs : List (String × OutMsg)} (hs : Inv s)
    (h : handleCreateLobby s pid payload code = Except.ok (s', msgs)) : Inv s' := by
  obtain ⟨pl, pplayer⟩ := payload
  cases pplayer with
  | none => simp [handleCreateLobby] at h
  | some pp =>
    obtain ⟨hl, _, _⟩ := handleCreateLobby_ok h
    constructor
    · rw [hl]
      exact nodup_map_fst_mapInsert hs.nodupCodes
    · intro e he
      rw [hl] at he
      rcases mem_of_mem_mapInsert he with rfl | he'
      · exact ⟨rfl, by simp, by simp⟩
      · exact hs.lobbyOk e he'

theorem joinLobby_ok {s : Server} {pid lobbyID : String} {lobby lobby' : Lobby} {s' : Server}
    (h : s.joinLobby pid lobbyID = Except.ok (lobby', s')) :
    mapLookup lobbyID s.Lobbies = some lobby →
    lobby.players.length < 2 →
    lobby' = { id := lobby.id, players := lobby.players ++ [pid] }
      ∧ s'.Lobbies = mapInsert lobbyID lobby' s.Lobbies
      ∧ s'.heap = s.heap := by
  intro hlook hlt
  simp only [Server.joinLobby, hlook] at h
  rw [if_neg (by omega)] at h
  simp only [Except.ok.injEq, Prod.mk.injEq] at h
  obtain ⟨h1, h2⟩ := h
  subst h1; subst h2
  exact ⟨rfl, rfl, rfl⟩

theorem joinLobby_cases {s : Server} {pid lobbyID : String} {lobby' : Lobby} {s' : Server}
    (h : s.joinLobby pid lobbyID = Except.ok (lobby', s')) :
    ∃ lobby, mapLookup lobbyID s.Lobbies = some lobby ∧ lobby.players.length < 2 ∧
      lobby' = { id := lobby.id, players := lobby.players ++ [pid] }
      ∧ s'.Lobbies = mapInsert lobbyID lobby' s.Lobbies
      ∧ s'.heap = s.heap := by
  cases hlook : mapLookup lobbyID s.Lobbies with
  | none => simp [Server.joinLobby, hlook] at h
  | some lobby =>
    by_cases hlen : 2 ≤ lobby.players.length
    · simp [Server.joinLobby, hlook, hlen] at h
    · exact ⟨lobby, rfl, by omega, joinLobby_ok h hlook (by omega)⟩

theorem inv_handleJoinLobby {s : Server} {pid : String} {payload : Payload}
    {s' : Server} {msgs : List (String × OutMsg)} (hs : Inv s)
    (h : handleJoinLobby s pid payload = Except.ok (s', msgs)) : Inv s' := by
  obtain ⟨plobby, pplayer⟩ := payload
  cases pplayer with
  | none => simp [handleJoinLobby] at h
  | some pp =>
    cases plobby with
    | none => simp [handleJoinLobby] at h
    | some pl =>
      simp only [handleJoinLobby] at h
      cases hj : (updatePlayer s pid fun p =>
          { p with isHost := false, avatarIdx := pp.avatarIdx,
                   nickname := pp.nickname }).joinLobby pid pl.id with
      | error e =>
        rw [hj] at h
        simp only [Except.ok.injEq, Prod.mk.injEq] at h
        obtain ⟨h1, _⟩ := h
        subst h1
        refine Inv.of_lobbies_eq ?_ hs
        rfl
      | ok r =>
        obtain ⟨lobby', s2⟩ := r
        rw [hj] at h
        simp only [Except.ok.injEq, Prod.mk.injEq] at h
        obtain ⟨h1, _⟩ := h
        subst h1
        obtain ⟨lobby, hlook, hlt, rfl, hl2, _⟩ := joinLobby_cases hj
        have hmem : (pl.id, lobby) ∈ s.Lobbies := mem_of_mapLookup_eq_some hlook
        have hok := hs.lobbyOk _ hmem
        constructor
        · rw [hl2]
          exact nodup_map_fst_mapInsert hs.nodupCodes
        · intro e he
          rw [hl2] at he
          rcases mem_of_mem_mapInsert he with rfl | he'
          · refine ⟨hok.1, by simp, by simp; omega⟩
          · exact hs.lobbyOk e he'

theorem inv_step {s s' : Server} {op : Op} {msgs : List (String × OutMsg)} (hs : Inv s)
    (h : step s op = some (s', msgs)) : Inv s' := by
  cases op with
  | connect pid =>
    simp only [step] at h
    split at h
    · exact absurd h (by simp)
    · simp only [Option.some.injEq, Prod.mk.injEq] at h
      obtain ⟨h1, _⟩ := h
      subst h1
      refine Inv.of_lobbies_eq ?_ hs
      rfl
  | create pid payload code =>
    simp only [step] at h
    split at h
    · split at h
      · exact absurd h (by simp)
      · next r heq =>
        simp only [Option.some.injEq] at h
        subst h
        exact inv_handleCreateLobby hs heq
    · exact absurd h (by simp)
  | join pid payload =>
    simp only [step] at h
    split at h
    · split at h
      · exact absurd h (by simp)
      · next r heq =>
        simp only [Option.some.injEq] at h
        subst h
        exact inv_handleJoinLobby hs heq
    · exact absurd h (by simp)
  | quit pid =>
    simp only [step] at h
    split at h
    · simp only [Option.some.injEq, handlerPlayerQuit, Prod.mk.injEq] at h
      obtain ⟨h1, _⟩ := h
      subst h1
      refine Inv.of_lobbies_eq ?_ hs
      rfl
    · exact absurd h (by simp)

theorem inv_run : ∀ {ops : List Op} {s s' : Server} {log : List (String × OutMsg)},
    Inv s → run s ops = some (s', log) → Inv s' := by
  intro ops
  induction ops with
  | nil =>
    intro s s' log hs h
    simp only [run, Option.some.injEq, Prod.mk.injEq] at h
    obtain ⟨h1, _⟩ := h
    subst h1
    exact hs
  | cons op rest ih =>
    intro s s' log hs h
    simp only [run] at h
    cases hst : step s op with
    | none => rw [hst] at h; simp at h
    | some r =>
      obtain ⟨s1, msgs⟩ := r
      rw [hst] at h
      dsimp only at h
      cases hr : run s1 rest with
      | none => rw [hr] at h; simp at h
      | some r2 =>
        obtain ⟨sf, log'⟩ := r2
        rw [hr] at h
        simp only [Option.some.injEq, Prod.mk.injEq] at h
        obtain ⟨h1, _⟩ := h
        subst h1
        exact ih (inv_step hs hst) hr

theorem inv_runInit {ops : List Op} {s : Server} {log : List (String × OutMsg)}
    (h : runInit ops = some (s, log)) : Inv s :=
  inv_run inv_initServer h

/-! ### Handler outcome lemmas -/

theorem handleJoinLobby_ok {s : Server} {pid : String} {pp : PayloadPlayer}
    {pl : PayloadLobby} {lobby : Lobby} {s' : Server} {msgs : List (String × OutMsg)}
    (hlook : mapLookup pl.id s.Lobbies = some lobby) (hlt : lobby.players.length < 2)
    (hh : handleJoinLobby s pid ⟨some pl, some pp⟩ = Except.ok (s', msgs)) :
    msgs = (lobby.players ++ [pid]).map
        (fun m => (m, OutMsg.lobbyJoined { id := lobby.id, players := lobby.players ++ [pid] }))
      ∧ s'.Lobbies =
          mapInsert pl.id { id := lobby.id, players := lobby.players ++ [pid] } s.Lobbies
      ∧ s'.heap = mapAdjust pid (fun p =>
          { p with isHost := false, avatarIdx := pp.avatarIdx, nickname := pp.nickname })
          s.heap := by
  simp only [handleJoinLobby, updatePlayer, Server.joinLobby, hlook] at hh
  rw [if_neg (by omega)] at hh
  simp only [Except.ok.injEq, Prod.mk.injEq] at hh
  obtain ⟨h1, h2⟩ := hh
  subst h1; subst h2
  exact ⟨rfl, rfl, rfl⟩

theorem handleJoinLobby_error {s : Server} {pid : String} {pp : PayloadPlayer}
    {pl : PayloadLobby} {e : JoinError} {s' : Server} {msgs : List (String × OutMsg)}
    (he : s.joinLobby pid pl.id = Except.error e)
    (hh : handleJoinLobby s pid ⟨some pl, some pp⟩ = Except.ok (s', msgs)) :
    msgs = [(pid, OutMsg.errorMsg e.message)] ∧ s'.Lobbies = s.Lobbies := by
  cases hlook : mapLookup pl.id s.Lobbies with
  | none =>
    have he' : JoinError.lobbyNotFound pl.id = e := by
      simpa [Server.joinLobby, hlook] using he
    subst he'
    simp only [handleJoinLobby, updatePlayer, Server.joinLobby, hlook, Except.ok.injEq,
      Prod.mk.injEq] at hh
    obtain ⟨h1, h2⟩ := hh
    subst h1; subst h2
    exact ⟨rfl, rfl⟩
  | some lobby =>
    by_cases hlen : 2 ≤ lobby.players.length
    · have he' : JoinError.lobbyFull pl.id = e := by
        simpa [Server.joinLobby, hlook, hlen] using he
      subst he'
      simp only [handleJoinLobby, updatePlayer, Server.joinLobby, hlook] at hh
      rw [if_pos hlen] at hh
      simp only [Except.ok.injEq, Prod.mk.injEq] at hh
      obtain ⟨h1, h2⟩ := hh
      subst h1; subst h2
      exact ⟨rfl, rfl⟩
    · exfalso
      simp [Server.joinLobby, hlook, hlen] at he

/-! ### Claim theorems -/

/-- C5: a `JoinLobby` whose code is absent from the registry returns the
`LobbyNotFound` error, the handler enqueues only the error response to the
joiner, and the lobby registry — every member list, code and entry — is
exactly as before the operation. -/
theorem C5_join_unknown_code (s : Server) (pid : String) (pp : PayloadPlayer)
    (pl : PayloadLobby) (h : mapLookup pl.id s.Lobbies = none) :
    s.joinLobby pid pl.id = Except.error (JoinError.lobbyNotFound pl.id)
    ∧ ∀ s' msgs, handleJoinLobby s pid ⟨some pl, some pp⟩ = Except.ok (s', msgs) →
        s'.Lobbies = s.Lobbies
        ∧ msgs = [(pid, OutMsg.errorMsg (JoinError.lobbyNotFound pl.id).message)] := by
  have hj : s.joinLobby pid pl.id = Except.error (JoinError.lobbyNotFound pl.id) := by
    simp [Server.joinLobby, h]
  refine ⟨hj, ?_⟩
  intro s' msgs hh
  obtain ⟨hm, hl⟩ := handleJoinLobby_error hj hh
  exact ⟨hl, hm⟩

/-- C5 witness: joining the empty registry with code `zzzzzz`. -/
theorem C5_join_unknown_code_witness :
    initServer.joinLobby "B" "zzzzzz" = Except.error (JoinError.lobbyNotFound "zzzzzz")
    ∧ ∀ s' msgs,
        handleJoinLobby initServer "B" ⟨some ⟨"zzzzzz"⟩, some ⟨"nb", 2⟩⟩ = Except.ok (s', msgs) →
        s'.Lobbies = initServer.Lobbies
        ∧ msgs = [("B", OutMsg.errorMsg (JoinError.lobbyNotFound "zzzzzz").message)] :=
  C5_join_unknown_code initServer "B" ⟨"nb", 2⟩ ⟨"zzzzzz"⟩ (by rfl)

/-- C6: a failed `JoinLobby` — unknown code or full lobby — enqueues exactly
one `Error` message, addressed to the joining session, every enqueued message
goes to the joiner (so every other session, lobby members included, receives
nothing), and the registry is unchanged. -/
theorem C6_join_error_unicast (s : Server) (pid : String) (pp : PayloadPlayer)
    (pl : PayloadLobby) (e : JoinError) (s' : Server) (msgs : List (String × OutMsg))
    (he : s.joinLobby pid pl.id = Except.error e)
    (hh : handleJoinLobby s pid ⟨some pl, some pp⟩ = Except.ok (s', msgs)) :
    msgs = [(pid, OutMsg.errorMsg e.message)]
    ∧ msgs.length = 1
    ∧ (∀ q m, (q, m) ∈ msgs → q = pid)
    ∧ s'.Lobbies = s.Lobbies := by
  obtain ⟨hm, hl⟩ := handleJoinLobby_error he hh
  subst hm
  refine ⟨rfl, rfl, ?_, hl⟩
  intro q m hq
  simp only [List.mem_singleton, Prod.mk.injEq] at hq
  exact hq.1

/-- C6 witness: a join to an unknown code on the empty registry yields the
single error message to the joiner. -/
theorem C6_join_error_unicast_witness :
    [("B", OutMsg.errorMsg (JoinError.lobbyNotFound "zzzzzz").message)]
      = [("B", OutMsg.errorMsg (JoinError.lobbyNotFound "zzzzzz").message)]
    ∧ ([("B", OutMsg.errorMsg (JoinError.lobbyNotFound "zzzzzz").message)] :
        List (String × OutMsg)).length = 1
    ∧ (∀ q m, (q, m) ∈ [("B", OutMsg.errorMsg (JoinError.lobbyNotFound "zzzzzz").message)] →
        q = "B")
    ∧ (initServer : Server).Lobbies = initServer.Lobbies :=
  C6_join_error_unicast initServer "B" ⟨"nb", 2⟩ ⟨"zzzzzz"⟩
    (JoinError.lobbyNotFound "zzzzzz") initServer
    [("B", OutMsg.errorMsg (JoinError.lobbyNotFound "zzzzzz").message)] (by rfl) (by rfl)

/-- C8: `PlayerQuit` removes the originating session from the player
directory, enqueues no message to anyone, and leaves the lobby registry,
every player object, and every other session's directory entry exactly as
they were. -/
theorem C8_quit_frame (s : Server) (pid : String) :
    (handlerPlayerQuit s pid).2 = []
    ∧ (handlerPlayerQuit s pid).1.Lobbies = s.Lobbies
    ∧ (handlerPlayerQuit s pid).1.heap = s.heap
    ∧ pid ∉ (handlerPlayerQuit s pid).1.Players
    ∧ ∀ q, q ≠ pid → (q ∈ (handlerPlayerQuit s pid).1.Players ↔ q ∈ s.Players) := by
  refine ⟨rfl, rfl, rfl, ?_, ?_⟩
  · simp [handlerPlayerQuit, List.mem_filter]
  · intro q hq
    simp [handlerPlayerQuit, List.mem_filter, hq]

/-- C8 witness: quitting session `A` keeps session `B`'s directory entry. -/
theorem C8_quit_frame_witness :
    "B" ∈ (handlerPlayerQuit ⟨[], ["A", "B"], []⟩ "A").1.Players ↔ "B" ∈ ["A", "B"] :=
  (C8_quit_frame ⟨[], ["A", "B"], []⟩ "A").2.2.2.2 "B" (by decide)

/-- C9 counterexample: on the lookup-then-append path of `joinLobby` the
registry lock is NOT released before the lobby lock is acquired — its release
is deferred to function return, so at the `lobby.mu.Lock()` the registry lock
is still held and the two locks are held simultaneously. -/
theorem C9_counterexample :
    registryFreeAtLobbyAcq
      (joinLobbyLockTrace ⟨[("aaaaaa", ⟨"aaaaaa", ["A"]⟩)], ["A"], [("A", newPlayer "A")]⟩
        "aaaaaa") false = false := by rfl

/-- C9 amended: in `joinLobby` the registry lock is acquired first and held
across the whole lookup-then-append sequence; the lobby's own lock is
acquired strictly inside it (registry-before-lobby, never reversed) and
released before the deferred registry unlock.  Every control path produces
one of the two nested traces. -/
theorem C9_lock_nesting (s : Server) (lobbyID : String) :
    registryHeldAtLobbyAcq (joinLobbyLockTrace s lobbyID) false = true
    ∧ (joinLobbyLockTrace s lobbyID = [LockEvent.acqRegistry, LockEvent.relRegistry]
       ∨ joinLobbyLockTrace s lobbyID =
           [LockEvent.acqRegistry, LockEvent.acqLobby lobbyID,
            LockEvent.relLobby lobbyID, LockEvent.relRegistry]) := by
  unfold joinLobbyLockTrace
  cases mapLookup lobbyID s.Lobbies with
  | none => exact ⟨rfl, Or.inl rfl⟩
  | some lobby =>
    dsimp only
    by_cases h : 2 ≤ lobby.players.length
    · simp only [if_pos h]
      exact ⟨rfl, Or.inl trivial⟩
    · simp only [if_neg h]
      exact ⟨rfl, Or.inr trivial⟩

/-- C10: a well-formed inbound envelope of type `CreateLobby` or `JoinLobby`
whose payload decodes without a `player` object (or, for `JoinLobby`, without
a `lobby` object) drives the handler into a nil-pointer dereference — the
handlers read `payload.Player` / `payload.Lobby.ID` with no nil check after a
successful decode, instead of logging and dropping the message. -/
theorem C10_nil_payload_deref (s : Server) (pid code : String) (pl : Option PayloadLobby)
    (pp : PayloadPlayer) :
    handleCreateLobby s pid ⟨pl, none⟩ code = Except.error NilDeref.nilPlayer
    ∧ handleJoinLobby s pid ⟨pl, none⟩ = Except.error NilDeref.nilPlayer
    ∧ handleJoinLobby s pid ⟨none, some pp⟩ = Except.error NilDeref.nilLobby :=
  ⟨rfl, rfl, rfl⟩

/-- C7 counterexample: the `Error` response produced by `errorResponse` is
not in the type-and-payload envelope shape — its text sits in a top-level
`message` field, with no `payload` field at all. -/
theorem C7_counterexample :
    ¬ IsEnvelope (errorResponse "ERROR: lobby with id aaaaaa not found") := by
  rintro ⟨t, payloadJson, h, -⟩
  simp only [errorResponse, Json.obj.injEq, List.cons.injEq, Prod.mk.injEq] at h
  exact absurd h.2.1.1 (by decide)

/-- C7 amended: `Connected`, `LobbyCreated` and `LobbyJoined` are serialized
in the type-and-payload envelope with a recognized outbound type and all
content inside `payload`; the `Error` response alone deviates, carrying its
text in a top-level `message` field instead of a `payload`. -/
theorem C7_envelope_shape (p : Player) (l : LobbyWire) (s : String) :
    IsEnvelope (generateConnectedMsg p)
    ∧ IsEnvelope (generateLobbyCreatedMsg l)
    ∧ IsEnvelope (generateLobbyJoinedMsg l)
    ∧ errorResponse s = Json.obj [("type", Json.str "Error"), ("message", Json.str s)] :=
  ⟨⟨"Connected", Json.obj [("player", marshalPlayer p)], rfl, by decide⟩,
   ⟨"LobbyCreated", Json.obj [("lobby", marshalLobbyWire l)], rfl, by decide⟩,
   ⟨"LobbyJoined", Json.obj [("lobby", marshalLobbyWire l)], rfl, by decide⟩,
   rfl⟩

/-- C1 counterexample: two `CreateLobby` calls that draw the same 6-character
code.  After the first, the registry entry for `aaaaaa` is `A`'s lobby; the
second create silently replaces it with `B`'s lobby instead of regenerating a
fresh code, so `A`'s lobby entry is removed from the registry. -/
theorem C1_counterexample :
    (runInit [Op.connect "A", Op.create "A" ⟨none, some ⟨"na", 1⟩⟩ "aaaaaa"]).map
        (fun r => mapLookup "aaaaaa" r.1.Lobbies)
      = some (some { id := "aaaaaa", players := ["A"] })
    ∧ (runInit [Op.connect "A", Op.create "A" ⟨none, some ⟨"na", 1⟩⟩ "aaaaaa",
          Op.connect "B", Op.create "B" ⟨none, some ⟨"nb", 2⟩⟩ "aaaaaa"]).map
        (fun r => mapLookup "aaaaaa" r.1.Lobbies)
      = some (some { id := "aaaaaa", players := ["B"] }) := by
  constructor <;> rfl

/-- C1 amended: after any sequence of operations the active lobby codes are
pairwise distinct (the registry is a map keyed by code, so a collision can
never leave two lobbies sharing a code) — but on a code collision
`createLobby` overwrites the existing registry entry rather than regenerating
a fresh code. -/
theorem C1_codes_unique (ops : List Op) (s : Server) (log : List (String × OutMsg))
    (h : runInit ops = some (s, log)) :
    (s.Lobbies.map fun e => e.2.id).Nodup := by
  have hinv := inv_runInit h
  have hmap : (s.Lobbies.map fun e => e.2.id) = s.Lobbies.map Prod.fst :=
    List.map_congr_left fun e he => (hinv.lobbyOk e he).1
  rw [hmap]
  exact hinv.nodupCodes

/-- C1 witness: two creates with distinct codes give distinct active codes. -/
theorem C1_codes_unique_witness :
    ((⟨[("aaaaaa", ⟨"aaaaaa", ["A"]⟩), ("bbbbbb", ⟨"bbbbbb", ["B"]⟩)], ["A", "B"],
        [("A", ⟨"A", "na", 1, true⟩), ("B", ⟨"B", "nb", 2, true⟩)]⟩ : Server).Lobbies.map
          fun e => e.2.id).Nodup :=
  C1_codes_unique
    [Op.connect "A", Op.create "A" ⟨none, some ⟨"na", 1⟩⟩ "aaaaaa",
     Op.connect "B", Op.create "B" ⟨none, some ⟨"nb", 2⟩⟩ "bbbbbb"] _ _ (by rfl)

/-- C2: in every state reachable by any sequence of operations, every active
lobby has 1 or 2 members — created at 1, capped at 2 — and `joinLobby` on a
lobby that already has 2 members returns the `LobbyFull` error (the append is
never reached). -/
theorem C2_member_count :
    (∀ (ops : List Op) (s : Server) (log : List (String × OutMsg)),
        runInit ops = some (s, log) →
        ∀ e ∈ s.Lobbies, 1 ≤ (e : String × Lobby).2.players.length
          ∧ e.2.players.length ≤ 2)
    ∧ (∀ (s : Server) (pid code : String) (lobby : Lobby),
        mapLookup code s.Lobbies = some lobby → 2 ≤ lobby.players.length →
        s.joinLobby pid code = Except.error (JoinError.lobbyFull code)) := by
  constructor
  · intro ops s log h e he
    exact ((inv_runInit h).lobbyOk e he).2
  · intro s pid code lobby hl hfull
    simp [Server.joinLobby, hl, hfull]

/-- C2 witness: the lobby created by `A` has exactly one member, and a join
on a 2-member lobby is refused as full. -/
theorem C2_member_count_witness :
    (1 ≤ (("aaaaaa", ⟨"aaaaaa", ["A"]⟩) : String × Lobby).2.players.length
      ∧ (("aaaaaa", ⟨"aaaaaa", ["A"]⟩) : String × Lobby).2.players.length ≤ 2)
    ∧ Server.joinLobby ⟨[("aaaaaa", ⟨"aaaaaa", ["A", "B"]⟩)], [], []⟩ "C" "aaaaaa"
        = Except.error (JoinError.lobbyFull "aaaaaa") :=
  ⟨C2_member_count.1 [Op.connect "A", Op.create "A" ⟨none, some ⟨"na", 1⟩⟩ "aaaaaa"] _ _
      (by rfl) ("aaaaaa", ⟨"aaaaaa", ["A"]⟩) (by decide),
   C2_member_count.2 ⟨[("aaaaaa", ⟨"aaaaaa", ["A", "B"]⟩)], [], []⟩ "C" "aaaaaa"
      ⟨"aaaaaa", ["A", "B"]⟩ (by rfl) (by simp)⟩

/-- C3 counterexample: the host `A` creates lobby `aaaaaa` and then sends a
`JoinLobby` for the same code.  The join succeeds (the lobby had one member),
and because the handler overwrites the shared `Player` object's `isHost`
before joining, the reachable state has a lobby whose FIRST member — its
creator `A` — carries `isHost = false`, contradicting the claimed invariant. -/
theorem C3_counterexample :
    (runInit [Op.connect "A", Op.create "A" ⟨none, some ⟨"na", 1⟩⟩ "aaaaaa",
        Op.join "A" ⟨some ⟨"aaaaaa"⟩, some ⟨"na", 1⟩⟩]).map
        (fun r => ((mapLookup "aaaaaa" r.1.Lobbies).map Lobby.players,
                   (mapLookup "A" r.1.heap).map Player.isHost))
      = some (some ["A", "A"], some false) := by rfl

/-- C3 amended: membership order is join order with the creator first — at
the moment of the operation a freshly created lobby's member list is exactly
the creator, whose `isHost` is set true, and a successful join appends the
joiner at the end, setting its `isHost` false.  (The `isHost` flag lives on
the shared session object and records only the session's most recent
create/join, so the first-is-host reading does not persist across later
operations by the same session.) -/
theorem C3_member_order :
    (∀ (s : Server) (pid : String) (pp : PayloadPlayer) (pl : Option PayloadLobby)
        (code : String) (s' : Server) (msgs : List (String × OutMsg)),
        handleCreateLobby s pid ⟨pl, some pp⟩ code = Except.ok (s', msgs) →
        mapLookup code s'.Lobbies = some { id := code, players := [pid] }
        ∧ ((mapLookup pid s.heap).isSome →
            (mapLookup pid s'.heap).map Player.isHost = some true))
    ∧ (∀ (s : Server) (pid : String) (pp : PayloadPlayer) (pl : PayloadLobby)
        (lobby : Lobby) (s' : Server) (msgs : List (String × OutMsg)),
        mapLookup pl.id s.Lobbies = some lobby →
        lobby.players.length < 2 →
        handleJoinLobby s pid ⟨some pl, some pp⟩ = Except.ok (s', msgs) →
        mapLookup pl.id s'.Lobbies
          = some { id := lobby.id, players := lobby.players ++ [pid] }
        ∧ ((mapLookup pid s.heap).isSome →
            (mapLookup pid s'.heap).map Player.isHost = some false)) := by
  constructor
  · intro s pid pp pl code s' msgs h
    obtain ⟨hl, hh, -⟩ := handleCreateLobby_ok h
    refine ⟨by rw [hl, mapLookup_mapInsert_self], ?_⟩
    intro hsome
    cases hp : mapLookup pid s.heap with
    | none => rw [hp] at hsome; simp at hsome
    | some p => rw [hh, mapLookup_mapAdjust_self, hp]; rfl
  · intro s pid pp pl lobby s' msgs hlook hlt h
    obtain ⟨-, hl, hh⟩ := handleJoinLobby_ok hlook hlt h
    refine ⟨by rw [hl, mapLookup_mapInsert_self], ?_⟩
    intro hsome
    cases hp : mapLookup pid s.heap with
    | none => rw [hp] at hsome; simp at hsome
    | some p => rw [hh, mapLookup_mapAdjust_self, hp]; rfl

/-- C3 witness: after `A` creates lobby `aaaaaa`, its member list is exactly
`A` and `A`'s session object has `isHost = true`. -/
theorem C3_member_order_witness :
    mapLookup "aaaaaa" (⟨[("aaaaaa", ⟨"aaaaaa", ["A"]⟩)], ["A"],
        [("A", ⟨"A", "na", 1, true⟩)]⟩ : Server).Lobbies
      = some { id := "aaaaaa", players := ["A"] } :=
  (C3_member_order.1 ⟨[], ["A"], [("A", newPlayer "A")]⟩ "A" ⟨"na", 1⟩ none "aaaaaa"
      _ _ (by rfl)).1

/-- C4: a successful `JoinLobby` on a reachable state enqueues exactly two
`LobbyJoined` messages, the recipients are exactly the lobby's two members
(host first, joiner second), both messages carry the identical grown lobby
state, and no other session receives anything. -/
theorem C4_joined_broadcast (ops : List Op) (s : Server) (log : List (String × OutMsg))
    (pid : String) (pp : PayloadPlayer) (pl : PayloadLobby) (lobby : Lobby)
    (s' : Server) (msgs : List (String × OutMsg))
    (hrun : runInit ops = some (s, log))
    (hlook : mapLookup pl.id s.Lobbies = some lobby)
    (hlt : lobby.players.length < 2)
    (hh : handleJoinLobby s pid ⟨some pl, some pp⟩ = Except.ok (s', msgs)) :
    msgs.length = 2
    ∧ ∃ l', (∀ x ∈ msgs, x.2 = OutMsg.lobbyJoined l')
        ∧ msgs.map Prod.fst = l'.players
        ∧ l'.players = lobby.players ++ [pid]
        ∧ mapLookup pl.id s'.Lobbies = some l' := by
  have hone : lobby.players.length = 1 := by
    have h1 : 1 ≤ lobby.players.length :=
      ((inv_runInit hrun).lobbyOk _ (mem_of_mapLookup_eq_some hlook)).2.1
    omega
  obtain ⟨hm, hl2, -⟩ := handleJoinLobby_ok hlook hlt hh
  refine ⟨?_, ⟨{ id := lobby.id, players := lobby.players ++ [pid] }, ?_, ?_, rfl, ?_⟩⟩
  · rw [hm]
    simp [hone]
  · intro x hx
    rw [hm] at hx
    obtain ⟨m, -, rfl⟩ := List.mem_map.mp hx
    rfl
  · rw [hm, List.map_map]
    exact List.map_id _
  · rw [hl2, mapLookup_mapInsert_self]

/-- C4 witness: `B` joins `A`'s one-member lobby `aaaaaa`; the broadcast has
exactly two messages. -/
theorem C4_joined_broadcast_witness :
    ([("A", OutMsg.lobbyJoined { id := "aaaaaa", players := ["A", "B"] }),
      ("B", OutMsg.lobbyJoined { id := "aaaaaa", players := ["A", "B"] })] :
        List (String × OutMsg)).length = 2 :=
  (C4_joined_broadcast [Op.connect "A", Op.create "A" ⟨none, some ⟨"na", 1⟩⟩ "aaaaaa",
      Op.connect "B"] _ _ "B" ⟨"nb", 2⟩ ⟨"aaaaaa"⟩ ⟨"aaaaaa", ["A"]⟩ _ _
      (by rfl) (by rfl) (by simp) (by rfl)).1

end GuessWho
